import Mathlib

/-!
Verification of the step-and-repeat imposition planner.

The planning core of the program is pure arithmetic over page and sheet
dimensions: converting millimetres to points, enumerating trim/rotation
scenarios, computing the grid that fits the usable area, selecting the best
scenario, centering the grid on the sheet, and emitting per-cell placement
transforms.  We embed that core here over the rationals (the source works
with real-valued magnitudes; all operations used are exact on rationals) and
prove the stated properties.
-/

/-- Conversion factor from millimetres to points, as in the source:
MM_TO_PT = 72 / 25.4. -/
def MM_TO_PT : ℚ := 72 / 25.4

/-- The fixed paper sizes, in millimetres, keyed by format name. -/
def PAPER_SIZES_MM : List (String × ℚ × ℚ) :=
  [("A4", 210, 297), ("A3", 297, 420), ("SRA4", 225, 320), ("SRA3", 320, 450)]

/-- A candidate imposition scenario, mirroring the dict built in main:
trim amount (mm), rotation flag, grid size, inner centering margins within
the usable area, effective card dimensions in the grid, and capacity. -/
structure Scenario where
  trim_mm : ℚ
  rotate : Bool
  cols : ℕ
  rows : ℕ
  inner_mx : ℚ
  inner_my : ℚ
  card_w_eff : ℚ
  card_h_eff : ℚ
  capacity : ℕ
deriving DecidableEq, Repr

/-- compute_grid from the source: cols and rows are the floor of the usable
extent divided by the card extent; fails (None) when either is below 1;
otherwise also returns the inner margins centering the grid in the usable
area. -/
def compute_grid (card_w card_h usable_w usable_h : ℚ) :
    Option (ℕ × ℕ × ℚ × ℚ) :=
  let cols : ℤ := ⌊usable_w / card_w⌋
  let rows : ℤ := ⌊usable_h / card_h⌋
  if cols < 1 ∨ rows < 1 then none
  else
    let used_w : ℚ := (cols.toNat : ℚ) * card_w
    let used_h : ℚ := (rows.toNat : ℚ) * card_h
    some (cols.toNat, rows.toNat, (usable_w - used_w) / 2, (usable_h - used_h) / 2)

/-- Candidate card extent after trimming, as computed per trim option in
main: when trim_mm is positive, 2 x trim (in points) is removed from the
axis; otherwise the extent is unchanged. -/
def cardAfterTrim (orig trim_mm : ℚ) : ℚ :=
  if 0 < trim_mm then orig - 2 * (trim_mm * MM_TO_PT) else orig

/-- One rotation sub-case of the scenario loop in main: swap the card axes
when rotated, run compute_grid, and record the scenario when viable. -/
def mkScenario (usable_w usable_h trim_mm card_w card_h : ℚ) (rot : Bool) :
    Option Scenario :=
  let card_w_eff := if rot then card_h else card_w
  let card_h_eff := if rot then card_w else card_h
  match compute_grid card_w_eff card_h_eff usable_w usable_h with
  | none => none
  | some (cols, rows, imx, imy) =>
      some ⟨trim_mm, rot, cols, rows, imx, imy, card_w_eff, card_h_eff, cols * rows⟩

/-- The trim candidates tried by main, in millimetres. -/
def trimCandidates : List ℚ := [0, 2]

/-- The scenario record produced by a successful rotation sub-case, written
out with the grid values of compute_grid substituted.  This is the closed
form of what mkScenario returns in its viable branch. -/
def canonScenario (usable_w usable_h trim_mm card_w card_h : ℚ) (r : Bool) :
    Scenario :=
  let ew := if r then card_h else card_w
  let eh := if r then card_w else card_h
  ⟨trim_mm, r, (⌊usable_w / ew⌋).toNat, (⌊usable_h / eh⌋).toNat,
   (usable_w - ((⌊usable_w / ew⌋).toNat : ℚ) * ew) / 2,
   (usable_h - ((⌊usable_h / eh⌋).toNat : ℚ) * eh) / 2,
   ew, eh, (⌊usable_w / ew⌋).toNat * (⌊usable_h / eh⌋).toNat⟩

/-- The scenarios generated for one trim candidate: the trimmed card extents
are computed once, a non-positive extent eliminates the whole trim option,
and otherwise both rotation sub-cases are attempted. -/
def scenariosForTrim (orig_w orig_h usable_w usable_h trim_mm : ℚ) :
    List Scenario :=
  let card_w := cardAfterTrim orig_w trim_mm
  let card_h := cardAfterTrim orig_h trim_mm
  if card_w ≤ 0 ∨ card_h ≤ 0 then []
  else [false, true].filterMap (mkScenario usable_w usable_h trim_mm card_w card_h)

/-- The full scenario enumeration of main: both trim candidates, in order. -/
def enumerateScenarios (orig_w orig_h usable_w usable_h : ℚ) : List Scenario :=
  trimCandidates.flatMap (scenariosForTrim orig_w orig_h usable_w usable_h)

/-- The sort key used by main (compared lexicographically, maximum wins):
capacity, then negated trim, then 1 for unrotated / 0 for rotated. -/
def scenarioKey (s : Scenario) : ℕ × ℚ × ℕ :=
  (s.capacity, -s.trim_mm, if s.rotate then 0 else 1)

/-- Strict lexicographic order on sort keys. -/
def keyLt (a b : ℕ × ℚ × ℕ) : Prop :=
  a.1 < b.1 ∨ (a.1 = b.1 ∧ (a.2.1 < b.2.1 ∨ (a.2.1 = b.2.1 ∧ a.2.2 < b.2.2)))

/-- Non-strict lexicographic order on sort keys. -/
def keyLe (a b : ℕ × ℚ × ℕ) : Prop :=
  a.1 < b.1 ∨ (a.1 = b.1 ∧ (a.2.1 < b.2.1 ∨ (a.2.1 = b.2.1 ∧ a.2.2 ≤ b.2.2)))

instance (a b : ℕ × ℚ × ℕ) : Decidable (keyLt a b) := by
  unfold keyLt; infer_instance

instance (a b : ℕ × ℚ × ℕ) : Decidable (keyLe a b) := by
  unfold keyLe; infer_instance

/-- One comparison step of the selection fold: replace the current best
only by a strictly greater key, which keeps the earliest maximal element,
exactly as the stable descending sort of main does. -/
def selStep (acc : Option Scenario) (s : Scenario) : Option Scenario :=
  match acc with
  | none => some s
  | some b => if keyLt (scenarioKey b) (scenarioKey s) then some s else some b

/-- The selection step of main: sort descending by key (a stable sort) and
take the first element.  Equivalently, fold over the list keeping the
earliest element with the lexicographically greatest key. -/
def selectBest (l : List Scenario) : Option Scenario :=
  l.foldl selStep none

/-- The failure modes of the planning pipeline in main. -/
inductive PlanError where
  | marginTooLarge
  | noViableScenario
  | overTrimmed
  | invariantViolation
deriving DecidableEq, Repr

/-- The data main carries into the placement phase: the winning scenario,
the card extents after the actual crop, the effective extents honoring
rotation, and the final centering margins on the whole sheet. -/
structure Plan where
  best : Scenario
  final_card_w : ℚ
  final_card_h : ℚ
  card_w_eff : ℚ
  card_h_eff : ℚ
  margin_x : ℚ
  margin_y : ℚ
deriving DecidableEq, Repr

/-- The planning portion of main, from the usable-area check to the margin
invariant check: usable area from the minimum margins (error when
non-positive on either axis), scenario enumeration and selection (error when
empty), the actual crop (error when it would leave a non-positive extent),
effective extents for the chosen rotation, and final margins centering the
grid on the whole sheet (internal error when below the minimum beyond the
0.01 pt tolerance). -/
def makePlan (orig_w orig_h sheet_w sheet_h margin_x_min margin_y_min : ℚ) :
    Except PlanError Plan :=
  let usable_w := sheet_w - 2 * margin_x_min
  let usable_h := sheet_h - 2 * margin_y_min
  if usable_w ≤ 0 ∨ usable_h ≤ 0 then .error .marginTooLarge
  else
    match selectBest (enumerateScenarios orig_w orig_h usable_w usable_h) with
    | none => .error .noViableScenario
    | some best =>
      let final_card_w := cardAfterTrim orig_w best.trim_mm
      let final_card_h := cardAfterTrim orig_h best.trim_mm
      if 0 < best.trim_mm ∧ (final_card_w ≤ 0 ∨ final_card_h ≤ 0) then
        .error .overTrimmed
      else
        let card_w_eff := if best.rotate then final_card_h else final_card_w
        let card_h_eff := if best.rotate then final_card_w else final_card_h
        let grid_w := (best.cols : ℚ) * card_w_eff
        let grid_h := (best.rows : ℚ) * card_h_eff
        let margin_x := (sheet_w - grid_w) / 2
        let margin_y := (sheet_h - grid_h) / 2
        if margin_x < margin_x_min - 1 / 100 ∨ margin_y < margin_y_min - 1 / 100 then
          .error .invariantViolation
        else
          .ok ⟨best, final_card_w, final_card_h, card_w_eff, card_h_eff,
               margin_x, margin_y⟩

/-- Capacity of the scenario selected by a successful planning run: the
number of cards per sheet that main reports and imposes. -/
def chosenCapacity (orig_w orig_h sheet_w sheet_h margin_x_min margin_y_min : ℚ) :
    Option ℕ :=
  match makePlan orig_w orig_h sheet_w sheet_h margin_x_min margin_y_min with
  | .ok p => some p.best.capacity
  | .error _ => none

/-- The affine transform emitted by impose_side: an optional 90 degree
counter-clockwise rotation about the global origin, followed by a
translation. -/
structure Transformation where
  rotate90 : Bool
  tx : ℚ
  ty : ℚ
deriving DecidableEq, Repr

/-- Action of the transform on a point: rotate 90 degrees counter-clockwise
about the origin (when enabled), then translate. -/
def Transformation.apply (t : Transformation) (p : ℚ × ℚ) : ℚ × ℚ :=
  if t.rotate90 then (t.tx - p.2, t.ty + p.1) else (t.tx + p.1, t.ty + p.2)

/-- The cell origin computed in the placement loop of impose_side. -/
def cellOrigin (margin_x margin_y card_w_eff card_h_eff : ℚ) (col row : ℕ) :
    ℚ × ℚ :=
  (margin_x + (col : ℚ) * card_w_eff, margin_y + (row : ℚ) * card_h_eff)

/-- The transform emitted by impose_side for one cell: when rotating, rotate
90 degrees then translate by (origin.x + raw card height, origin.y); when
not rotating, translate by the origin. -/
def cellTransform (margin_x margin_y card_w_eff card_h_eff card_h_raw : ℚ)
    (rotate : Bool) (col row : ℕ) : Transformation :=
  let o := cellOrigin margin_x margin_y card_w_eff card_h_eff col row
  if rotate then ⟨true, o.1 + card_h_raw, o.2⟩ else ⟨false, o.1, o.2⟩

/-- Lower-left corner of the image of the axis-aligned card rectangle with
corners (0,0) and (w,h) under a transform: the componentwise minimum over
the four transformed corners. -/
def bboxLowerLeft (t : Transformation) (w h : ℚ) : ℚ × ℚ :=
  let p00 := t.apply (0, 0)
  let p10 := t.apply (w, 0)
  let p01 := t.apply (0, h)
  let p11 := t.apply (w, h)
  (min (min p00.1 p10.1) (min p01.1 p11.1),
   min (min p00.2 p10.2) (min p01.2 p11.2))

/-- A page bounding box, as exposed by the mediabox of a page. -/
structure PageBox where
  llx : ℚ
  lly : ℚ
  urx : ℚ
  ury : ℚ
deriving DecidableEq, Repr

/-- Width of a page box. -/
def PageBox.width (b : PageBox) : ℚ := b.urx - b.llx

/-- Height of a page box. -/
def PageBox.height (b : PageBox) : ℚ := b.ury - b.lly

/-- crop_page_all_sides from the source, as a function from the incoming box
to the box after the call together with an error flag: a non-positive trim
returns at once; otherwise the four candidate edges are computed and the
over-trim error is raised before any edge is assigned, so the box is
unchanged on that path; only when both remaining extents are positive is the
box updated. -/
def crop_page_all_sides (box : PageBox) (trim_loss_mm : ℚ) : PageBox × Bool :=
  if trim_loss_mm ≤ 0 then (box, false)
  else
    let trim_pts := trim_loss_mm * MM_TO_PT
    let new_llx := box.llx + trim_pts
    let new_lly := box.lly + trim_pts
    let new_urx := box.urx - trim_pts
    let new_ury := box.ury - trim_pts
    if new_urx ≤ new_llx ∨ new_ury ≤ new_lly then (box, true)
    else (⟨new_llx, new_lly, new_urx, new_ury⟩, false)

/-- Worked example: width of a 90 x 50 mm card, in points. -/
def exCardW : ℚ := 90 * MM_TO_PT

/-- Worked example: height of a 90 x 50 mm card, in points. -/
def exCardH : ℚ := 50 * MM_TO_PT

/-- Worked example: width of an A4 sheet, in points. -/
def exSheetW : ℚ := 210 * MM_TO_PT

/-- Worked example: height of an A4 sheet, in points. -/
def exSheetH : ℚ := 297 * MM_TO_PT

/-- Worked example: a 5 mm minimum margin, in points. -/
def exMargin : ℚ := 5 * MM_TO_PT

/-- Worked example: a 40 mm minimum margin, in points. -/
def exWideMargin : ℚ := 40 * MM_TO_PT

/-- Worked example, 5 mm margins: the no-trim no-rotation scenario. -/
def exScen00 : Scenario :=
  ⟨0, false, 2, 5, 10 * MM_TO_PT, 37 / 2 * MM_TO_PT,
   90 * MM_TO_PT, 50 * MM_TO_PT, 10⟩

/-- Worked example, 5 mm margins: the no-trim rotated scenario. -/
def exScen01 : Scenario :=
  ⟨0, true, 4, 3, 0, 17 / 2 * MM_TO_PT, 50 * MM_TO_PT, 90 * MM_TO_PT, 12⟩

/-- Worked example, 5 mm margins: the trimmed unrotated scenario. -/
def exScen20 : Scenario :=
  ⟨2, false, 2, 6, 14 * MM_TO_PT, 11 / 2 * MM_TO_PT,
   86 * MM_TO_PT, 46 * MM_TO_PT, 12⟩

/-- Worked example, 5 mm margins: the trimmed rotated scenario. -/
def exScen21 : Scenario :=
  ⟨2, true, 4, 3, 8 * MM_TO_PT, 29 / 2 * MM_TO_PT,
   46 * MM_TO_PT, 86 * MM_TO_PT, 12⟩

/-- Worked example, 5 mm margins: the plan of the winning run. -/
def exPlan : Plan :=
  ⟨exScen01, 90 * MM_TO_PT, 50 * MM_TO_PT, 50 * MM_TO_PT, 90 * MM_TO_PT,
   5 * MM_TO_PT, 27 / 2 * MM_TO_PT⟩

/-- Worked example, 40 mm margins: the no-trim no-rotation scenario. -/
def exScenW00 : Scenario :=
  ⟨0, false, 1, 4, 20 * MM_TO_PT, 17 / 2 * MM_TO_PT,
   90 * MM_TO_PT, 50 * MM_TO_PT, 4⟩

/-- Worked example, 40 mm margins: the no-trim rotated scenario. -/
def exScenW01 : Scenario :=
  ⟨0, true, 2, 2, 15 * MM_TO_PT, 37 / 2 * MM_TO_PT,
   50 * MM_TO_PT, 90 * MM_TO_PT, 4⟩

/-- Worked example, 40 mm margins: the trimmed unrotated scenario. -/
def exScenW20 : Scenario :=
  ⟨2, false, 1, 4, 22 * MM_TO_PT, 33 / 2 * MM_TO_PT,
   86 * MM_TO_PT, 46 * MM_TO_PT, 4⟩

/-- Worked example, 40 mm margins: the trimmed rotated scenario. -/
def exScenW21 : Scenario :=
  ⟨2, true, 2, 2, 19 * MM_TO_PT, 45 / 2 * MM_TO_PT,
   46 * MM_TO_PT, 86 * MM_TO_PT, 4⟩

/-- Worked example, 40 mm margins: the plan of the winning run. -/
def exPlanW : Plan :=
  ⟨exScenW00, 90 * MM_TO_PT, 50 * MM_TO_PT, 90 * MM_TO_PT, 50 * MM_TO_PT,
   60 * MM_TO_PT, 97 / 2 * MM_TO_PT⟩

/-- Helper: the two components of a cell origin. -/
theorem cellOrigin_fst (mx my ew eh : ℚ) (col row : ℕ) :
    (cellOrigin mx my ew eh col row).1 = mx + (col : ℚ) * ew := rfl

/-- Helper: the second component of a cell origin. -/
theorem cellOrigin_snd (mx my ew eh : ℚ) (col row : ℕ) :
    (cellOrigin mx my ew eh col row).2 = my + (row : ℚ) * eh := rfl

/-- C1: for every cell, when rotation is active the emitted transform is a
90 degree rotation about the global origin followed by a translation by
(origin.x + raw card height, origin.y), and this transform places the
lower-left corner of the bounding box of the rotated card exactly at the
cell origin; when rotation is inactive the transform is a pure translation
by the cell origin. -/
theorem c1_rotated_transform_places_lower_left_at_origin
    (margin_x margin_y card_w_eff card_h_eff card_w_raw card_h_raw : ℚ)
    (col row : ℕ) (hw : 0 ≤ card_w_raw) (hh : 0 ≤ card_h_raw) :
    cellTransform margin_x margin_y card_w_eff card_h_eff card_h_raw true col row
      = { rotate90 := true,
          tx := (cellOrigin margin_x margin_y card_w_eff card_h_eff col row).1
                  + card_h_raw,
          ty := (cellOrigin margin_x margin_y card_w_eff card_h_eff col row).2 } ∧
    bboxLowerLeft
        (cellTransform margin_x margin_y card_w_eff card_h_eff card_h_raw true col row)
        card_w_raw card_h_raw
      = cellOrigin margin_x margin_y card_w_eff card_h_eff col row ∧
    cellTransform margin_x margin_y card_w_eff card_h_eff card_h_raw false col row
      = { rotate90 := false,
          tx := (cellOrigin margin_x margin_y card_w_eff card_h_eff col row).1,
          ty := (cellOrigin margin_x margin_y card_w_eff card_h_eff col row).2 } := by
  refine ⟨rfl, ?_, rfl⟩
  simp only [cellTransform, bboxLowerLeft, Transformation.apply, cellOrigin,
    if_true, min_self]
  simp only [Prod.mk.injEq]
  constructor
  · have h1 : margin_x + (col : ℚ) * card_w_eff + card_h_raw - card_h_raw
        = margin_x + (col : ℚ) * card_w_eff := by ring
    rw [sub_zero, h1]
    exact min_eq_right (by linarith)
  · rw [add_zero]
    exact min_eq_left (by linarith)

/-- C1 witness at a concrete cell. -/
theorem c1_witness :
    bboxLowerLeft (cellTransform 1 2 3 4 5 true 0 0) 3 5
      = cellOrigin 1 2 3 4 0 0 :=
  (c1_rotated_transform_places_lower_left_at_origin 1 2 3 4 3 5 0 0
    (by decide) (by decide)).2.1

/-- C4: for every cell, the back-side placement equals the front-side
placement shifted by the fixed duplex correction vector: the origin passed
to the back side is the front origin plus the offset, and, given that the
front and back pages share the same raw dimensions, the emitted back
transform has the same rotation flag and its translation components are the
front ones shifted by the offset. -/
theorem c4_back_placement_is_front_plus_offset
    (margin_x margin_y off_x off_y card_w_eff card_h_eff hf_raw hb_raw : ℚ)
    (rotate : Bool) (col row : ℕ) (hsame : hf_raw = hb_raw) :
    (cellOrigin (margin_x + off_x) (margin_y + off_y) card_w_eff card_h_eff col row).1
      = (cellOrigin margin_x margin_y card_w_eff card_h_eff col row).1 + off_x ∧
    (cellOrigin (margin_x + off_x) (margin_y + off_y) card_w_eff card_h_eff col row).2
      = (cellOrigin margin_x margin_y card_w_eff card_h_eff col row).2 + off_y ∧
    (cellTransform (margin_x + off_x) (margin_y + off_y) card_w_eff card_h_eff
        hb_raw rotate col row).rotate90
      = (cellTransform margin_x margin_y card_w_eff card_h_eff
          hf_raw rotate col row).rotate90 ∧
    (cellTransform (margin_x + off_x) (margin_y + off_y) card_w_eff card_h_eff
        hb_raw rotate col row).tx
      = (cellTransform margin_x margin_y card_w_eff card_h_eff
          hf_raw rotate col row).tx + off_x ∧
    (cellTransform (margin_x + off_x) (margin_y + off_y) card_w_eff card_h_eff
        hb_raw rotate col row).ty
      = (cellTransform margin_x margin_y card_w_eff card_h_eff
          hf_raw rotate col row).ty + off_y := by
  subst hsame
  cases rotate <;> refine ⟨?_, ?_, rfl, ?_, ?_⟩ <;>
    simp [cellTransform, cellOrigin] <;> ring

/-- C4 witness at a concrete cell. -/
theorem c4_witness :
    (cellTransform (1 + 7) (2 + 0) 3 4 5 true 0 0).tx
      = (cellTransform 1 2 3 4 5 true 0 0).tx + 7 :=
  (c4_back_placement_is_front_plus_offset 1 2 7 0 3 4 5 5 true 0 0 rfl).2.2.2.1

/-- C6: per trim candidate, the candidate card extent is the original
reduced by twice the trim (in points) on each axis when the trim is
positive, and exactly the original when the trim is zero; when either
reduced axis is non-positive the trim option generates no scenarios at all. -/
theorem c6_trim_candidate_dimensions
    (orig_w orig_h usable_w usable_h trim_mm : ℚ) :
    (0 < trim_mm →
      cardAfterTrim orig_w trim_mm = orig_w - 2 * (trim_mm * MM_TO_PT) ∧
      cardAfterTrim orig_h trim_mm = orig_h - 2 * (trim_mm * MM_TO_PT)) ∧
    (trim_mm = 0 →
      cardAfterTrim orig_w trim_mm = orig_w ∧
      cardAfterTrim orig_h trim_mm = orig_h) ∧
    (cardAfterTrim orig_w trim_mm ≤ 0 ∨ cardAfterTrim orig_h trim_mm ≤ 0 →
      scenariosForTrim orig_w orig_h usable_w usable_h trim_mm = []) := by
  refine ⟨fun h => ?_, fun h => ?_, fun h => ?_⟩
  · constructor <;> simp [cardAfterTrim, h]
  · constructor <;> simp [cardAfterTrim, h]
  · simp only [scenariosForTrim]
    split
    · rfl
    · next hc => exact absurd h hc

/-- C6 witness at a concrete trim. -/
theorem c6_witness :
    cardAfterTrim 100 2 = 100 - 2 * (2 * MM_TO_PT) ∧
    cardAfterTrim 50 2 = 50 - 2 * (2 * MM_TO_PT) :=
  (c6_trim_candidate_dimensions 100 50 0 0 2).1 (by decide)

/-- C10: the crop operation is total and atomic at its boundary: a
non-positive trim returns the box unchanged with no error; whenever the
error flag is raised the box is unchanged; and the box differs from the
input only when both resulting extents are strictly positive (and then no
error is raised); moreover an over-large trim on either axis yields exactly
the unchanged box with the error raised. -/
theorem c10_crop_atomic (box : PageBox) (trim_loss_mm : ℚ) :
    (trim_loss_mm ≤ 0 → crop_page_all_sides box trim_loss_mm = (box, false)) ∧
    ((crop_page_all_sides box trim_loss_mm).2 = true →
      (crop_page_all_sides box trim_loss_mm).1 = box) ∧
    ((crop_page_all_sides box trim_loss_mm).1 ≠ box →
      0 < (crop_page_all_sides box trim_loss_mm).1.width ∧
      0 < (crop_page_all_sides box trim_loss_mm).1.height ∧
      (crop_page_all_sides box trim_loss_mm).2 = false) ∧
    (0 < trim_loss_mm ∧
        (box.width - 2 * (trim_loss_mm * MM_TO_PT) ≤ 0 ∨
         box.height - 2 * (trim_loss_mm * MM_TO_PT) ≤ 0) →
      crop_page_all_sides box trim_loss_mm = (box, true)) := by
  by_cases h0 : trim_loss_mm ≤ 0
  · have hres : crop_page_all_sides box trim_loss_mm = (box, false) := by
      simp only [crop_page_all_sides, if_pos h0]
    rw [hres]
    exact ⟨fun _ => rfl, by simp, fun hne => absurd rfl hne,
      fun hpos => absurd h0 (not_le.mpr hpos.1)⟩
  · push_neg at h0
    by_cases hbad :
        box.urx - trim_loss_mm * MM_TO_PT ≤ box.llx + trim_loss_mm * MM_TO_PT ∨
        box.ury - trim_loss_mm * MM_TO_PT ≤ box.lly + trim_loss_mm * MM_TO_PT
    · have hres : crop_page_all_sides box trim_loss_mm = (box, true) := by
        simp only [crop_page_all_sides]
        rw [if_neg (not_le.mpr h0), if_pos hbad]
      rw [hres]
      exact ⟨fun hle => absurd hle (not_le.mpr h0), fun _ => rfl,
        fun hne => absurd rfl hne, fun _ => rfl⟩
    · have hres : crop_page_all_sides box trim_loss_mm =
          (⟨box.llx + trim_loss_mm * MM_TO_PT, box.lly + trim_loss_mm * MM_TO_PT,
            box.urx - trim_loss_mm * MM_TO_PT,
            box.ury - trim_loss_mm * MM_TO_PT⟩, false) := by
        simp only [crop_page_all_sides]
        rw [if_neg (not_le.mpr h0), if_neg hbad]
      push_neg at hbad
      rw [hres]
      refine ⟨fun hle => absurd hle (not_le.mpr h0), by simp,
        fun _ => ?_, fun hpos => ?_⟩
      · refine ⟨?_, ?_, rfl⟩ <;> simp only [PageBox.width, PageBox.height] <;>
          linarith [hbad.1, hbad.2]
      · rcases hpos.2 with h | h
        · have hw := h
          simp only [PageBox.width] at hw
          exact absurd hbad.1 (not_lt.mpr (by linarith))
        · have hh := h
          simp only [PageBox.height] at hh
          exact absurd hbad.2 (not_lt.mpr (by linarith))

/-- C10 witness at a concrete box and trim. -/
theorem c10_witness :
    crop_page_all_sides ⟨0, 0, 10, 10⟩ 0 = (⟨0, 0, 10, 10⟩, false) :=
  (c10_crop_atomic ⟨0, 0, 10, 10⟩ 0).1 (by decide)

/-- Keys compare reflexively. -/
theorem keyLe_refl (a : ℕ × ℚ × ℕ) : keyLe a a :=
  Or.inr ⟨rfl, Or.inr ⟨rfl, le_refl _⟩⟩

/-- A strict key comparison is in particular non-strict. -/
theorem keyLe_of_keyLt {a b : ℕ × ℚ × ℕ} (h : keyLt a b) : keyLe a b := by
  rcases h with h | ⟨e, h | ⟨e2, h⟩⟩
  · exact Or.inl h
  · exact Or.inr ⟨e, Or.inl h⟩
  · exact Or.inr ⟨e, Or.inr ⟨e2, le_of_lt h⟩⟩

/-- The key order is total: a failed strict comparison flips. -/
theorem keyLe_of_not_keyLt {a b : ℕ × ℚ × ℕ} (h : ¬ keyLt a b) : keyLe b a := by
  unfold keyLt at h
  push_neg at h
  obtain ⟨h1, h2⟩ := h
  rcases lt_or_eq_of_le h1 with hlt | he
  · exact Or.inl hlt
  · obtain ⟨h3, h4⟩ := h2 he.symm
    rcases lt_or_eq_of_le h3 with hlt2 | he2
    · exact Or.inr ⟨he, Or.inl hlt2⟩
    · exact Or.inr ⟨he, Or.inr ⟨he2, h4 he2.symm⟩⟩

/-- The key order is transitive. -/
theorem keyLe_trans {a b c : ℕ × ℚ × ℕ} (h1 : keyLe a b) (h2 : keyLe b c) :
    keyLe a c := by
  rcases h1 with h1 | ⟨e1, h1⟩ <;> rcases h2 with h2 | ⟨e2, h2⟩
  · exact Or.inl (lt_trans h1 h2)
  · exact Or.inl (by omega)
  · exact Or.inl (by omega)
  · refine Or.inr ⟨e1.trans e2, ?_⟩
    rcases h1 with h1 | ⟨f1, h1⟩ <;> rcases h2 with h2 | ⟨f2, h2⟩
    · exact Or.inl (lt_trans h1 h2)
    · exact Or.inl (by rw [← f2]; exact h1)
    · exact Or.inl (by rw [f1]; exact h2)
    · exact Or.inr ⟨f1.trans f2, le_trans h1 h2⟩

/-- Invariant of the selection fold: starting from a current best, the fold
returns an element of the list (or the start), whose key dominates the start
and every list element. -/
theorem foldl_selStep_spec (l : List Scenario) (b : Scenario) :
    ∃ r, l.foldl selStep (some b) = some r ∧ (r = b ∨ r ∈ l) ∧
      keyLe (scenarioKey b) (scenarioKey r) ∧
      ∀ t ∈ l, keyLe (scenarioKey t) (scenarioKey r) := by
  induction l generalizing b with
  | nil =>
    exact ⟨b, rfl, Or.inl rfl, keyLe_refl _,
      fun t ht => absurd ht (List.not_mem_nil t)⟩
  | cons x xs ih =>
    by_cases h : keyLt (scenarioKey b) (scenarioKey x)
    · obtain ⟨r, hr, hmem, hbr, hall⟩ := ih x
      have hstep : selStep (some b) x = some x := by simp [selStep, if_pos h]
      refine ⟨r, ?_, ?_, ?_, ?_⟩
      · simpa [List.foldl_cons, hstep] using hr
      · rcases hmem with rfl | hm
        · exact Or.inr (List.mem_cons_self _ _)
        · exact Or.inr (List.mem_cons_of_mem _ hm)
      · exact keyLe_trans (keyLe_of_keyLt h) hbr
      · intro t ht
        rcases List.mem_cons.mp ht with rfl | ht'
        · exact hbr
        · exact hall t ht'
    · obtain ⟨r, hr, hmem, hbr, hall⟩ := ih b
      have hstep : selStep (some b) x = some b := by simp [selStep, if_neg h]
      refine ⟨r, ?_, ?_, hbr, ?_⟩
      · simpa [List.foldl_cons, hstep] using hr
      · rcases hmem with rfl | hm
        · exact Or.inl rfl
        · exact Or.inr (List.mem_cons_of_mem _ hm)
      · intro t ht
        rcases List.mem_cons.mp ht with rfl | ht'
        · exact keyLe_trans (keyLe_of_not_keyLt h) hbr
        · exact hall t ht'

/-- Selection fails exactly on the empty scenario list, which is the
NoViableScenario situation of main. -/
theorem selectBest_eq_none_iff (l : List Scenario) :
    selectBest l = none ↔ l = [] := by
  cases l with
  | nil => simp [selectBest]
  | cons x xs =>
    obtain ⟨r, hr, -, -, -⟩ := foldl_selStep_spec xs x
    have : selectBest (x :: xs) = some r := by
      simpa [selectBest, List.foldl_cons, selStep] using hr
    simp [this]

/-- On a non-empty list, selection returns a member whose key dominates
every member. -/
theorem selectBest_spec {l : List Scenario} (hne : l ≠ []) :
    ∃ b, selectBest l = some b ∧ b ∈ l ∧
      ∀ t ∈ l, keyLe (scenarioKey t) (scenarioKey b) := by
  cases l with
  | nil => exact absurd rfl hne
  | cons x xs =>
    obtain ⟨r, hr, hmem, hbr, hall⟩ := foldl_selStep_spec xs x
    refine ⟨r, ?_, ?_, ?_⟩
    · simpa [selectBest, List.foldl_cons, selStep] using hr
    · rcases hmem with rfl | hm
      · exact List.mem_cons_self _ _
      · exact List.mem_cons_of_mem _ hm
    · intro t ht
      rcases List.mem_cons.mp ht with rfl | ht'
      · exact hbr
      · exact hall t ht'

/-- A selected scenario is a member of the list. -/
theorem selectBest_mem {l : List Scenario} {b : Scenario}
    (h : selectBest l = some b) : b ∈ l := by
  have hne : l ≠ [] := by
    rintro rfl
    simp [selectBest] at h
  obtain ⟨r, hr, hm, -⟩ := selectBest_spec hne
  obtain rfl : b = r := Option.some.inj (h.symm.trans hr)
  exact hm

/-- A selected scenario dominates every member in key order. -/
theorem selectBest_max {l : List Scenario} {b : Scenario}
    (h : selectBest l = some b) :
    ∀ t ∈ l, keyLe (scenarioKey t) (scenarioKey b) := by
  have hne : l ≠ [] := by
    rintro rfl
    simp [selectBest] at h
  obtain ⟨r, hr, -, hmax⟩ := selectBest_spec hne
  obtain rfl : b = r := Option.some.inj (h.symm.trans hr)
  exact hmax

/-- Key dominance gives capacity dominance (the leading key component). -/
theorem capacity_le_of_keyLe {s t : Scenario}
    (h : keyLe (scenarioKey t) (scenarioKey s)) : t.capacity ≤ s.capacity := by
  rcases h with h | ⟨e, -⟩
  · exact le_of_lt h
  · exact le_of_eq e

/-- Among equal capacities, key dominance prefers the smaller trim. -/
theorem trim_le_of_keyLe_tie {s t : Scenario}
    (h : keyLe (scenarioKey t) (scenarioKey s)) (hc : t.capacity = s.capacity) :
    s.trim_mm ≤ t.trim_mm := by
  rcases h with h | ⟨-, h | ⟨e2, -⟩⟩
  · exact absurd hc (ne_of_lt h)
  · have h' : -t.trim_mm < -s.trim_mm := h
    linarith
  · have e' : -t.trim_mm = -s.trim_mm := e2
    linarith

/-- Among equal capacities and trims, key dominance prefers no rotation. -/
theorem rot_of_keyLe_tie {s t : Scenario}
    (h : keyLe (scenarioKey t) (scenarioKey s)) (hc : t.capacity = s.capacity)
    (htr : t.trim_mm = s.trim_mm) (hrot : t.rotate = false) :
    s.rotate = false := by
  rcases h with h | ⟨-, h | ⟨-, h3⟩⟩
  · exact absurd hc (ne_of_lt h)
  · have h' : -t.trim_mm < -s.trim_mm := h
    rw [htr] at h'
    exact absurd h' (lt_irrefl _)
  · have h3' : (if t.rotate then (0:ℕ) else 1) ≤ (if s.rotate then 0 else 1) := h3
    rw [hrot] at h3'
    cases hs : s.rotate
    · rfl
    · rw [hs] at h3'
      simp at h3'

/-- compute_grid in the viable case, in closed form. -/
theorem compute_grid_pos {card_w card_h usable_w usable_h : ℚ}
    (h1 : 1 ≤ ⌊usable_w / card_w⌋) (h2 : 1 ≤ ⌊usable_h / card_h⌋) :
    compute_grid card_w card_h usable_w usable_h =
      some ((⌊usable_w / card_w⌋).toNat, (⌊usable_h / card_h⌋).toNat,
        (usable_w - ((⌊usable_w / card_w⌋).toNat : ℚ) * card_w) / 2,
        (usable_h - ((⌊usable_h / card_h⌋).toNat : ℚ) * card_h) / 2) := by
  simp only [compute_grid]
  rw [if_neg]
  push_neg
  omega

/-- compute_grid in the non-viable case. -/
theorem compute_grid_neg {card_w card_h usable_w usable_h : ℚ}
    (h : ⌊usable_w / card_w⌋ < 1 ∨ ⌊usable_h / card_h⌋ < 1) :
    compute_grid card_w card_h usable_w usable_h = none := by
  simp only [compute_grid]
  rw [if_pos h]

/-- mkScenario in the viable case returns the canonical record. -/
theorem mkScenario_eq_some {usable_w usable_h trim_mm card_w card_h : ℚ}
    {r : Bool}
    (h1 : 1 ≤ ⌊usable_w / (if r then card_h else card_w)⌋)
    (h2 : 1 ≤ ⌊usable_h / (if r then card_w else card_h)⌋) :
    mkScenario usable_w usable_h trim_mm card_w card_h r =
      some (canonScenario usable_w usable_h trim_mm card_w card_h r) := by
  simp only [mkScenario, canonScenario]
  rw [compute_grid_pos h1 h2]

/-- mkScenario in the non-viable case. -/
theorem mkScenario_eq_none {usable_w usable_h trim_mm card_w card_h : ℚ}
    {r : Bool}
    (h : ⌊usable_w / (if r then card_h else card_w)⌋ < 1 ∨
         ⌊usable_h / (if r then card_w else card_h)⌋ < 1) :
    mkScenario usable_w usable_h trim_mm card_w card_h r = none := by
  simp only [mkScenario]
  rw [compute_grid_neg h]

/-- Inversion for a successful mkScenario: the grid fit held and the result
is the canonical record. -/
theorem mkScenario_some_inv {usable_w usable_h trim_mm card_w card_h : ℚ}
    {r : Bool} {s : Scenario}
    (h : mkScenario usable_w usable_h trim_mm card_w card_h r = some s) :
    1 ≤ ⌊usable_w / (if r then card_h else card_w)⌋ ∧
    1 ≤ ⌊usable_h / (if r then card_w else card_h)⌋ ∧
    s = canonScenario usable_w usable_h trim_mm card_w card_h r := by
  by_cases hc : ⌊usable_w / (if r then card_h else card_w)⌋ < 1 ∨
      ⌊usable_h / (if r then card_w else card_h)⌋ < 1
  · rw [mkScenario_eq_none hc] at h
    exact absurd h (by simp)
  · push_neg at hc
    rw [mkScenario_eq_some hc.1 hc.2] at h
    exact ⟨hc.1, hc.2, (Option.some.inj h).symm⟩

/-- Membership in the per-trim scenario list, characterized. -/
theorem mem_scenariosForTrim_iff {orig_w orig_h usable_w usable_h trim_mm : ℚ}
    {s : Scenario} :
    s ∈ scenariosForTrim orig_w orig_h usable_w usable_h trim_mm ↔
      0 < cardAfterTrim orig_w trim_mm ∧ 0 < cardAfterTrim orig_h trim_mm ∧
      ∃ r : Bool,
        mkScenario usable_w usable_h trim_mm (cardAfterTrim orig_w trim_mm)
          (cardAfterTrim orig_h trim_mm) r = some s := by
  simp only [scenariosForTrim]
  split
  · next hc =>
    simp only [List.not_mem_nil, false_iff]
    rintro ⟨hw, hh, -⟩
    rcases hc with hc | hc <;> linarith
  · next hc =>
    push_neg at hc
    simp only [List.mem_filterMap]
    constructor
    · rintro ⟨r, -, hr⟩
      exact ⟨hc.1, hc.2, r, hr⟩
    · rintro ⟨-, -, r, hr⟩
      exact ⟨r, by cases r <;> simp, hr⟩

/-- Membership in the full enumeration, characterized by trim candidate. -/
theorem mem_enumerateScenarios_iff {orig_w orig_h usable_w usable_h : ℚ}
    {s : Scenario} :
    s ∈ enumerateScenarios orig_w orig_h usable_w usable_h ↔
      ∃ t, (t = (0 : ℚ) ∨ t = 2) ∧
        s ∈ scenariosForTrim orig_w orig_h usable_w usable_h t := by
  simp only [enumerateScenarios, trimCandidates, List.mem_flatMap,
    List.mem_cons, List.not_mem_nil, or_false]

/-- Structural facts about every enumerated scenario: its trim is one of the
candidates, both trimmed card extents are positive, the effective extents
are the axis-swap of the trimmed extents, the grid fit held, and the grid
fields are the floors recorded by compute_grid. -/
theorem mem_enum_props {orig_w orig_h usable_w usable_h : ℚ} {s : Scenario}
    (hs : s ∈ enumerateScenarios orig_w orig_h usable_w usable_h) :
    (s.trim_mm = 0 ∨ s.trim_mm = 2) ∧
    0 < cardAfterTrim orig_w s.trim_mm ∧ 0 < cardAfterTrim orig_h s.trim_mm ∧
    s.card_w_eff = (if s.rotate then cardAfterTrim orig_h s.trim_mm
                    else cardAfterTrim orig_w s.trim_mm) ∧
    s.card_h_eff = (if s.rotate then cardAfterTrim orig_w s.trim_mm
                    else cardAfterTrim orig_h s.trim_mm) ∧
    1 ≤ ⌊usable_w / s.card_w_eff⌋ ∧ 1 ≤ ⌊usable_h / s.card_h_eff⌋ ∧
    s.cols = (⌊usable_w / s.card_w_eff⌋).toNat ∧
    s.rows = (⌊usable_h / s.card_h_eff⌋).toNat ∧
    s.capacity = s.cols * s.rows := by
  obtain ⟨t, ht, hmem⟩ := mem_enumerateScenarios_iff.mp hs
  obtain ⟨hw, hh, r, hr⟩ := mem_scenariosForTrim_iff.mp hmem
  obtain ⟨h1, h2, rfl⟩ := mkScenario_some_inv hr
  refine ⟨?_, ?_, ?_, ?_, ?_, ?_, ?_, ?_, ?_, ?_⟩
  · simpa [canonScenario] using ht
  · simpa [canonScenario] using hw
  · simpa [canonScenario] using hh
  · simp [canonScenario]
  · simp [canonScenario]
  · simpa [canonScenario] using h1
  · simpa [canonScenario] using h2
  · simp [canonScenario]
  · simp [canonScenario]
  · simp [canonScenario]

/-- Every enumerated scenario has positive effective extents, a grid of at
least one column and row, and a grid footprint that fits the usable area. -/
theorem mem_enum_grid_fits {orig_w orig_h usable_w usable_h : ℚ} {s : Scenario}
    (hs : s ∈ enumerateScenarios orig_w orig_h usable_w usable_h) :
    0 < s.card_w_eff ∧ 0 < s.card_h_eff ∧ 1 ≤ s.cols ∧ 1 ≤ s.rows ∧
    (s.cols : ℚ) * s.card_w_eff ≤ usable_w ∧
    (s.rows : ℚ) * s.card_h_eff ≤ usable_h := by
  obtain ⟨-, hw, hh, hew, heh, h1, h2, hc, hr, -⟩ := mem_enum_props hs
  have hewpos : 0 < s.card_w_eff := by
    rw [hew]; split
    · exact hh
    · exact hw
  have hehpos : 0 < s.card_h_eff := by
    rw [heh]; split
    · exact hw
    · exact hh
  have hcols : 1 ≤ s.cols := by rw [hc]; omega
  have hrows : 1 ≤ s.rows := by rw [hr]; omega
  have hfitw : (s.cols : ℚ) * s.card_w_eff ≤ usable_w := by
    have hnn : (0 : ℤ) ≤ ⌊usable_w / s.card_w_eff⌋ := by omega
    have hcast : ((s.cols : ℕ) : ℚ) = ((⌊usable_w / s.card_w_eff⌋ : ℤ) : ℚ) := by
      rw [hc, ← Int.cast_natCast, Int.toNat_of_nonneg hnn]
    calc (s.cols : ℚ) * s.card_w_eff
        = ((⌊usable_w / s.card_w_eff⌋ : ℤ) : ℚ) * s.card_w_eff := by rw [hcast]
      _ ≤ (usable_w / s.card_w_eff) * s.card_w_eff := by
          exact mul_le_mul_of_nonneg_right (Int.floor_le _) (le_of_lt hewpos)
      _ = usable_w := div_mul_cancel₀ usable_w (ne_of_gt hewpos)
  have hfith : (s.rows : ℚ) * s.card_h_eff ≤ usable_h := by
    have hnn : (0 : ℤ) ≤ ⌊usable_h / s.card_h_eff⌋ := by omega
    have hcast : ((s.rows : ℕ) : ℚ) = ((⌊usable_h / s.card_h_eff⌋ : ℤ) : ℚ) := by
      rw [hr, ← Int.cast_natCast, Int.toNat_of_nonneg hnn]
    calc (s.rows : ℚ) * s.card_h_eff
        = ((⌊usable_h / s.card_h_eff⌋ : ℤ) : ℚ) * s.card_h_eff := by rw [hcast]
      _ ≤ (usable_h / s.card_h_eff) * s.card_h_eff := by
          exact mul_le_mul_of_nonneg_right (Int.floor_le _) (le_of_lt hehpos)
      _ = usable_h := div_mul_cancel₀ usable_h (ne_of_gt hehpos)
  exact ⟨hewpos, hehpos, hcols, hrows, hfitw, hfith⟩

/-- The enumeration holds at most two scenarios per trim candidate. -/
theorem scenariosForTrim_length_le (orig_w orig_h usable_w usable_h trim_mm : ℚ) :
    (scenariosForTrim orig_w orig_h usable_w usable_h trim_mm).length ≤ 2 := by
  simp only [scenariosForTrim]
  split
  · simp
  · exact le_trans (List.length_filterMap_le _ _) (by simp)

/-- The enumeration holds at most four scenarios. -/
theorem enum_length_le_four (orig_w orig_h usable_w usable_h : ℚ) :
    (enumerateScenarios orig_w orig_h usable_w usable_h).length ≤ 4 := by
  simp only [enumerateScenarios, trimCandidates, List.flatMap_cons,
    List.flatMap_nil, List.append_nil, List.length_append]
  have h0 := scenariosForTrim_length_le orig_w orig_h usable_w usable_h 0
  have h2 := scenariosForTrim_length_le orig_w orig_h usable_w usable_h 2
  omega

/-- The enumeration yields at most one scenario per (trim, rotation) pair:
two members agreeing on both are equal. -/
theorem enum_unique {orig_w orig_h usable_w usable_h : ℚ} {a b : Scenario}
    (ha : a ∈ enumerateScenarios orig_w orig_h usable_w usable_h)
    (hb : b ∈ enumerateScenarios orig_w orig_h usable_w usable_h)
    (ht : a.trim_mm = b.trim_mm) (hr : a.rotate = b.rotate) : a = b := by
  obtain ⟨t1, -, hm1⟩ := mem_enumerateScenarios_iff.mp ha
  obtain ⟨t2, -, hm2⟩ := mem_enumerateScenarios_iff.mp hb
  obtain ⟨-, -, r1, hr1⟩ := mem_scenariosForTrim_iff.mp hm1
  obtain ⟨-, -, r2, hr2⟩ := mem_scenariosForTrim_iff.mp hm2
  obtain ⟨-, -, ha'⟩ := mkScenario_some_inv hr1
  obtain ⟨-, -, hb'⟩ := mkScenario_some_inv hr2
  subst ha' hb'
  have ht' : t1 = t2 := by simpa [canonScenario] using ht
  have hr' : r1 = r2 := by simpa [canonScenario] using hr
  subst ht' hr'
  rfl

/-- C2: on a non-empty scenario set the selector returns exactly one
scenario that maximizes capacity; among equal capacities it prefers the
smaller trim; among remaining ties it prefers no rotation; and since the
enumeration produces at most one scenario per (trim, rotation) pair, the
selected scenario is the unique maximal element. -/
theorem c2_selector_deterministic_max (orig_w orig_h usable_w usable_h : ℚ)
    (hne : enumerateScenarios orig_w orig_h usable_w usable_h ≠ []) :
    ∃ b, selectBest (enumerateScenarios orig_w orig_h usable_w usable_h) = some b ∧
      b ∈ enumerateScenarios orig_w orig_h usable_w usable_h ∧
      (∀ t ∈ enumerateScenarios orig_w orig_h usable_w usable_h,
        t.capacity ≤ b.capacity) ∧
      (∀ t ∈ enumerateScenarios orig_w orig_h usable_w usable_h,
        t.capacity = b.capacity → b.trim_mm ≤ t.trim_mm) ∧
      (∀ t ∈ enumerateScenarios orig_w orig_h usable_w usable_h,
        t.capacity = b.capacity → t.trim_mm = b.trim_mm → t.rotate = false →
          b.rotate = false) ∧
      (∀ t ∈ enumerateScenarios orig_w orig_h usable_w usable_h,
        t.capacity = b.capacity → t.trim_mm = b.trim_mm → t.rotate = b.rotate →
          t = b) := by
  obtain ⟨b, hsel, hmem, hmax⟩ := selectBest_spec hne
  refine ⟨b, hsel, hmem, ?_, ?_, ?_, ?_⟩
  · exact fun t ht => capacity_le_of_keyLe (hmax t ht)
  · exact fun t ht hc => trim_le_of_keyLe_tie (hmax t ht) hc
  · exact fun t ht hc htr hrot => rot_of_keyLe_tie (hmax t ht) hc htr hrot
  · exact fun t ht _ htr hrot => enum_unique ht hmem htr hrot

/-- C5: for all inputs the enumeration produces at most 4 scenarios, and
every produced scenario has at least one column and row, capacity equal to
cols times rows and hence at least 1, with cols and rows the floors of the
usable extents divided by the effective card extents. -/
theorem c5_enumerator_invariants (orig_w orig_h usable_w usable_h : ℚ) :
    (enumerateScenarios orig_w orig_h usable_w usable_h).length ≤ 4 ∧
    ∀ s ∈ enumerateScenarios orig_w orig_h usable_w usable_h,
      1 ≤ s.cols ∧ 1 ≤ s.rows ∧ s.capacity = s.cols * s.rows ∧
      1 ≤ s.capacity ∧
      s.cols = (⌊usable_w / s.card_w_eff⌋).toNat ∧
      s.rows = (⌊usable_h / s.card_h_eff⌋).toNat := by
  refine ⟨enum_length_le_four orig_w orig_h usable_w usable_h, fun s hs => ?_⟩
  obtain ⟨-, -, -, -, -, h1, h2, hc, hr, hcap⟩ := mem_enum_props hs
  have hcols : 1 ≤ s.cols := by rw [hc]; omega
  have hrows : 1 ≤ s.rows := by rw [hr]; omega
  have hone : 1 ≤ s.capacity := by
    rw [hcap]
    calc 1 = 1 * 1 := rfl
      _ ≤ s.cols * s.rows := Nat.mul_le_mul hcols hrows
  exact ⟨hcols, hrows, hcap, hone, hc, hr⟩

/-- makePlan when a minimum margin leaves no usable area. -/
theorem makePlan_eq_margin {orig_w orig_h sheet_w sheet_h mx my : ℚ}
    (h : sheet_w - 2 * mx ≤ 0 ∨ sheet_h - 2 * my ≤ 0) :
    makePlan orig_w orig_h sheet_w sheet_h mx my = .error .marginTooLarge := by
  simp only [makePlan]
  rw [if_pos h]

/-- makePlan when the usable area is fine but no scenario is viable. -/
theorem makePlan_eq_noViable {orig_w orig_h sheet_w sheet_h mx my : ℚ}
    (h1 : ¬(sheet_w - 2 * mx ≤ 0 ∨ sheet_h - 2 * my ≤ 0))
    (h2 : selectBest (enumerateScenarios orig_w orig_h
            (sheet_w - 2 * mx) (sheet_h - 2 * my)) = none) :
    makePlan orig_w orig_h sheet_w sheet_h mx my = .error .noViableScenario := by
  simp only [makePlan]
  rw [if_neg h1, h2]

/-- makePlan when a scenario is selected: the later guards are unreachable
(the enumeration already guaranteed positive extents and a fitting grid),
and the plan record is produced with the centering margins, which satisfy
the configured minimums. -/
theorem makePlan_eq_ok {orig_w orig_h sheet_w sheet_h mx my : ℚ}
    {best : Scenario}
    (h1 : ¬(sheet_w - 2 * mx ≤ 0 ∨ sheet_h - 2 * my ≤ 0))
    (hsel : selectBest (enumerateScenarios orig_w orig_h
              (sheet_w - 2 * mx) (sheet_h - 2 * my)) = some best) :
    makePlan orig_w orig_h sheet_w sheet_h mx my = .ok
      ⟨best, cardAfterTrim orig_w best.trim_mm, cardAfterTrim orig_h best.trim_mm,
       (if best.rotate then cardAfterTrim orig_h best.trim_mm
        else cardAfterTrim orig_w best.trim_mm),
       (if best.rotate then cardAfterTrim orig_w best.trim_mm
        else cardAfterTrim orig_h best.trim_mm),
       (sheet_w - (best.cols : ℚ) *
          (if best.rotate then cardAfterTrim orig_h best.trim_mm
           else cardAfterTrim orig_w best.trim_mm)) / 2,
       (sheet_h - (best.rows : ℚ) *
          (if best.rotate then cardAfterTrim orig_w best.trim_mm
           else cardAfterTrim orig_h best.trim_mm)) / 2⟩ ∧
    mx ≤ (sheet_w - (best.cols : ℚ) *
            (if best.rotate then cardAfterTrim orig_h best.trim_mm
             else cardAfterTrim orig_w best.trim_mm)) / 2 ∧
    my ≤ (sheet_h - (best.rows : ℚ) *
            (if best.rotate then cardAfterTrim orig_w best.trim_mm
             else cardAfterTrim orig_h best.trim_mm)) / 2 := by
  have hmem := selectBest_mem hsel
  have props := mem_enum_props hmem
  have fits := mem_enum_grid_fits hmem
  have hot : ¬(0 < best.trim_mm ∧
      (cardAfterTrim orig_w best.trim_mm ≤ 0 ∨
       cardAfterTrim orig_h best.trim_mm ≤ 0)) := by
    rintro ⟨-, hcase | hcase⟩
    · linarith [props.2.1]
    · linarith [props.2.2.1]
  have hmx : mx ≤ (sheet_w - (best.cols : ℚ) *
      (if best.rotate then cardAfterTrim orig_h best.trim_mm
       else cardAfterTrim orig_w best.trim_mm)) / 2 := by
    have hfit := fits.2.2.2.2.1
    rw [← props.2.2.2.1]
    linarith [hfit]
  have hmy : my ≤ (sheet_h - (best.rows : ℚ) *
      (if best.rotate then cardAfterTrim orig_w best.trim_mm
       else cardAfterTrim orig_h best.trim_mm)) / 2 := by
    have hfit := fits.2.2.2.2.2
    rw [← props.2.2.2.2.1]
    linarith [hfit]
  have hmarg : ¬((sheet_w - (best.cols : ℚ) *
        (if best.rotate then cardAfterTrim orig_h best.trim_mm
         else cardAfterTrim orig_w best.trim_mm)) / 2 < mx - 1 / 100 ∨
      (sheet_h - (best.rows : ℚ) *
        (if best.rotate then cardAfterTrim orig_w best.trim_mm
         else cardAfterTrim orig_h best.trim_mm)) / 2 < my - 1 / 100) := by
    push_neg
    constructor
    · linarith [hmx]
    · linarith [hmy]
  refine ⟨?_, hmx, hmy⟩
  simp only [makePlan]
  rw [if_neg h1, hsel]
  dsimp only
  rw [if_neg hot, if_neg hmarg]

/-- Inversion of a successful planning run: the usable area was positive,
the plan scenario was the selected one, and the plan fields are the
compositor formulas, with the final margins at least the minimums. -/
theorem makePlan_ok_inv {orig_w orig_h sheet_w sheet_h mx my : ℚ} {p : Plan}
    (h : makePlan orig_w orig_h sheet_w sheet_h mx my = .ok p) :
    ¬(sheet_w - 2 * mx ≤ 0 ∨ sheet_h - 2 * my ≤ 0) ∧
    selectBest (enumerateScenarios orig_w orig_h
      (sheet_w - 2 * mx) (sheet_h - 2 * my)) = some p.best ∧
    p.card_w_eff = (if p.best.rotate then cardAfterTrim orig_h p.best.trim_mm
                    else cardAfterTrim orig_w p.best.trim_mm) ∧
    p.card_h_eff = (if p.best.rotate then cardAfterTrim orig_w p.best.trim_mm
                    else cardAfterTrim orig_h p.best.trim_mm) ∧
    p.margin_x = (sheet_w - (p.best.cols : ℚ) * p.card_w_eff) / 2 ∧
    p.margin_y = (sheet_h - (p.best.rows : ℚ) * p.card_h_eff) / 2 ∧
    mx ≤ p.margin_x ∧ my ≤ p.margin_y := by
  by_cases h1 : sheet_w - 2 * mx ≤ 0 ∨ sheet_h - 2 * my ≤ 0
  · rw [makePlan_eq_margin h1] at h
    exact Except.noConfusion h
  · cases hsel : selectBest (enumerateScenarios orig_w orig_h
        (sheet_w - 2 * mx) (sheet_h - 2 * my)) with
    | none =>
      rw [makePlan_eq_noViable h1 hsel] at h
      exact Except.noConfusion h
    | some best =>
      obtain ⟨heq, hmx, hmy⟩ := makePlan_eq_ok h1 hsel
      rw [heq] at h
      obtain rfl := (Except.ok.inj h).symm
      exact ⟨h1, rfl, rfl, rfl, rfl, rfl, hmx, hmy⟩

/-- C3: the final margins of a successful run center the grid on the whole
sheet, they are at least the configured minimums within the 0.01 pt
tolerance (indeed at least the minimums outright), and the internal
InvariantViolation branch is unreachable: the planner never returns it. -/
theorem c3_margins_and_invariant (orig_w orig_h sheet_w sheet_h mx my : ℚ) :
    makePlan orig_w orig_h sheet_w sheet_h mx my ≠ .error .invariantViolation ∧
    ∀ p, makePlan orig_w orig_h sheet_w sheet_h mx my = .ok p →
      p.margin_x = (sheet_w - (p.best.cols : ℚ) * p.card_w_eff) / 2 ∧
      p.margin_y = (sheet_h - (p.best.rows : ℚ) * p.card_h_eff) / 2 ∧
      mx - 1 / 100 ≤ p.margin_x ∧ my - 1 / 100 ≤ p.margin_y ∧
      mx ≤ p.margin_x ∧ my ≤ p.margin_y := by
  constructor
  · intro hbad
    by_cases h1 : sheet_w - 2 * mx ≤ 0 ∨ sheet_h - 2 * my ≤ 0
    · rw [makePlan_eq_margin h1] at hbad
      exact PlanError.noConfusion (Except.error.inj hbad)
    · cases hsel : selectBest (enumerateScenarios orig_w orig_h
          (sheet_w - 2 * mx) (sheet_h - 2 * my)) with
      | none =>
        rw [makePlan_eq_noViable h1 hsel] at hbad
        exact PlanError.noConfusion (Except.error.inj hbad)
      | some best =>
        obtain ⟨heq, -, -⟩ := makePlan_eq_ok h1 hsel
        rw [heq] at hbad
        exact Except.noConfusion hbad
  · intro p hp
    obtain ⟨-, -, -, -, hmxeq, hmyeq, hmx, hmy⟩ := makePlan_ok_inv hp
    exact ⟨hmxeq, hmyeq, by linarith, by linarith, hmx, hmy⟩

/-- C7: the planner fails with MarginTooLarge exactly when the usable area
is non-positive on either axis, independently of any scenario; and it fails
with NoViableScenario exactly when the usable area is positive but all four
trim and rotation combinations produced no viable scenario. -/
theorem c7_margin_error_vs_no_viable (orig_w orig_h sheet_w sheet_h mx my : ℚ) :
    (makePlan orig_w orig_h sheet_w sheet_h mx my = .error .marginTooLarge ↔
      sheet_w - 2 * mx ≤ 0 ∨ sheet_h - 2 * my ≤ 0) ∧
    (makePlan orig_w orig_h sheet_w sheet_h mx my = .error .noViableScenario ↔
      ¬(sheet_w - 2 * mx ≤ 0 ∨ sheet_h - 2 * my ≤ 0) ∧
      enumerateScenarios orig_w orig_h (sheet_w - 2 * mx) (sheet_h - 2 * my)
        = []) := by
  constructor
  · constructor
    · intro h
      by_contra h1
      cases hsel : selectBest (enumerateScenarios orig_w orig_h
          (sheet_w - 2 * mx) (sheet_h - 2 * my)) with
      | none =>
        rw [makePlan_eq_noViable h1 hsel] at h
        exact PlanError.noConfusion (Except.error.inj h)
      | some best =>
        obtain ⟨heq, -, -⟩ := makePlan_eq_ok h1 hsel
        rw [heq] at h
        exact Except.noConfusion h
    · exact makePlan_eq_margin
  · constructor
    · intro h
      by_cases h1 : sheet_w - 2 * mx ≤ 0 ∨ sheet_h - 2 * my ≤ 0
      · rw [makePlan_eq_margin h1] at h
        exact absurd (Except.error.inj h) (by decide)
      · cases hsel : selectBest (enumerateScenarios orig_w orig_h
            (sheet_w - 2 * mx) (sheet_h - 2 * my)) with
        | none => exact ⟨h1, (selectBest_eq_none_iff _).mp hsel⟩
        | some best =>
          obtain ⟨heq, -, -⟩ := makePlan_eq_ok h1 hsel
          rw [heq] at h
          exact Except.noConfusion h
    · rintro ⟨h1, hempty⟩
      exact makePlan_eq_noViable h1 ((selectBest_eq_none_iff _).mpr hempty)

/-- C8: the chosen capacity is monotone non-increasing in the margins: with
card and sheet fixed, enlarging either minimum margin can only decrease or
keep the capacity selected by a successful run. -/
theorem c8_capacity_monotone_in_margins
    (orig_w orig_h sheet_w sheet_h mx my mx' my' : ℚ) (c c' : ℕ)
    (hx : mx ≤ mx') (hy : my ≤ my')
    (h : chosenCapacity orig_w orig_h sheet_w sheet_h mx my = some c)
    (h' : chosenCapacity orig_w orig_h sheet_w sheet_h mx' my' = some c') :
    c' ≤ c := by
  unfold chosenCapacity at h h'
  cases hp : makePlan orig_w orig_h sheet_w sheet_h mx my with
  | error e =>
    rw [hp] at h
    exact Option.noConfusion h
  | ok p =>
  cases hp' : makePlan orig_w orig_h sheet_w sheet_h mx' my' with
  | error e =>
    rw [hp'] at h'
    exact Option.noConfusion h'
  | ok p' =>
  rw [hp] at h
  rw [hp'] at h'
  obtain rfl := Option.some.inj h
  obtain rfl := Option.some.inj h'
  obtain ⟨h1, hsel, -, -, -, -, -, -⟩ := makePlan_ok_inv hp
  obtain ⟨h1', hsel', -, -, -, -, -, -⟩ := makePlan_ok_inv hp'
  have hmem' : p'.best ∈ enumerateScenarios orig_w orig_h
      (sheet_w - 2 * mx') (sheet_h - 2 * my') := selectBest_mem hsel'
  obtain ⟨ht', hw', hh', hew, heh, hfw, hfh, hcols, hrows, hcapeq⟩ :=
    mem_enum_props hmem'
  have fits' := mem_enum_grid_fits hmem'
  have hewpos : 0 < p'.best.card_w_eff := fits'.1
  have hehpos : 0 < p'.best.card_h_eff := fits'.2.1
  have huw : sheet_w - 2 * mx' ≤ sheet_w - 2 * mx := by linarith
  have huh : sheet_h - 2 * my' ≤ sheet_h - 2 * my := by linarith
  have hflw : ⌊(sheet_w - 2 * mx') / p'.best.card_w_eff⌋ ≤
      ⌊(sheet_w - 2 * mx) / p'.best.card_w_eff⌋ :=
    Int.floor_le_floor ((div_le_div_iff_of_pos_right hewpos).mpr huw)
  have hflh : ⌊(sheet_h - 2 * my') / p'.best.card_h_eff⌋ ≤
      ⌊(sheet_h - 2 * my) / p'.best.card_h_eff⌋ :=
    Int.floor_le_floor ((div_le_div_iff_of_pos_right hehpos).mpr huh)
  have h1w : 1 ≤ ⌊(sheet_w - 2 * mx) /
      (if p'.best.rotate then cardAfterTrim orig_h p'.best.trim_mm
       else cardAfterTrim orig_w p'.best.trim_mm)⌋ := by
    rw [← hew]
    exact le_trans hfw hflw
  have h1h : 1 ≤ ⌊(sheet_h - 2 * my) /
      (if p'.best.rotate then cardAfterTrim orig_w p'.best.trim_mm
       else cardAfterTrim orig_h p'.best.trim_mm)⌋ := by
    rw [← heh]
    exact le_trans hfh hflh
  have hmk := @mkScenario_eq_some (sheet_w - 2 * mx) (sheet_h - 2 * my)
    p'.best.trim_mm (cardAfterTrim orig_w p'.best.trim_mm)
    (cardAfterTrim orig_h p'.best.trim_mm) p'.best.rotate h1w h1h
  have hsmem : canonScenario (sheet_w - 2 * mx) (sheet_h - 2 * my)
      p'.best.trim_mm (cardAfterTrim orig_w p'.best.trim_mm)
      (cardAfterTrim orig_h p'.best.trim_mm) p'.best.rotate ∈
      enumerateScenarios orig_w orig_h (sheet_w - 2 * mx) (sheet_h - 2 * my) :=
    mem_enumerateScenarios_iff.mpr
      ⟨p'.best.trim_mm, ht',
        mem_scenariosForTrim_iff.mpr ⟨hw', hh', p'.best.rotate, hmk⟩⟩
  have hle1 : p'.best.capacity ≤ (canonScenario (sheet_w - 2 * mx)
      (sheet_h - 2 * my) p'.best.trim_mm (cardAfterTrim orig_w p'.best.trim_mm)
      (cardAfterTrim orig_h p'.best.trim_mm) p'.best.rotate).capacity := by
    have hcanon : (canonScenario (sheet_w - 2 * mx) (sheet_h - 2 * my)
        p'.best.trim_mm (cardAfterTrim orig_w p'.best.trim_mm)
        (cardAfterTrim orig_h p'.best.trim_mm) p'.best.rotate).capacity =
        (⌊(sheet_w - 2 * mx) /
           (if p'.best.rotate then cardAfterTrim orig_h p'.best.trim_mm
            else cardAfterTrim orig_w p'.best.trim_mm)⌋).toNat *
        (⌊(sheet_h - 2 * my) /
           (if p'.best.rotate then cardAfterTrim orig_w p'.best.trim_mm
            else cardAfterTrim orig_h p'.best.trim_mm)⌋).toNat := by
      simp [canonScenario]
    rw [hcanon, hcapeq, hcols, hrows]
    have hflw' : ⌊(sheet_w - 2 * mx') / p'.best.card_w_eff⌋ ≤
        ⌊(sheet_w - 2 * mx) /
          (if p'.best.rotate then cardAfterTrim orig_h p'.best.trim_mm
           else cardAfterTrim orig_w p'.best.trim_mm)⌋ := by
      rw [← hew]
      exact hflw
    have hflh' : ⌊(sheet_h - 2 * my') / p'.best.card_h_eff⌋ ≤
        ⌊(sheet_h - 2 * my) /
          (if p'.best.rotate then cardAfterTrim orig_w p'.best.trim_mm
           else cardAfterTrim orig_h p'.best.trim_mm)⌋ := by
      rw [← heh]
      exact hflh
    exact Nat.mul_le_mul (by omega) (by omega)
  have hle2 := capacity_le_of_keyLe (selectBest_max hsel _ hsmem)
  exact le_trans hle1 hle2

/-- Worked example, 5 mm margins: the scenarios of the zero-trim option. -/
theorem a4_trim0 :
    scenariosForTrim exCardW exCardH (exSheetW - 2 * exMargin)
      (exSheetH - 2 * exMargin) 0 = [exScen00, exScen01] := by
  norm_num [scenariosForTrim, mkScenario, compute_grid, cardAfterTrim,
    MM_TO_PT, exCardW, exCardH, exSheetW, exSheetH, exMargin,
    exScen00, exScen01, List.filterMap_cons, Scenario.mk.injEq]
  simp only [Int.reduceToNat]
  norm_num

/-- Worked example, 5 mm margins: the scenarios of the 2 mm trim option. -/
theorem a4_trim2 :
    scenariosForTrim exCardW exCardH (exSheetW - 2 * exMargin)
      (exSheetH - 2 * exMargin) 2 = [exScen20, exScen21] := by
  norm_num [scenariosForTrim, mkScenario, compute_grid, cardAfterTrim,
    MM_TO_PT, exCardW, exCardH, exSheetW, exSheetH, exMargin,
    exScen20, exScen21, List.filterMap_cons, Scenario.mk.injEq]
  simp only [Int.reduceToNat]
  norm_num

/-- Worked example, 5 mm margins: the full enumeration. -/
theorem a4_enum :
    enumerateScenarios exCardW exCardH (exSheetW - 2 * exMargin)
      (exSheetH - 2 * exMargin) = [exScen00, exScen01, exScen20, exScen21] := by
  simp only [enumerateScenarios, trimCandidates, List.flatMap_cons,
    List.flatMap_nil, List.append_nil]
  rw [a4_trim0, a4_trim2]
  rfl

/-- Worked example, 5 mm margins: the selection picks the no-trim rotated
scenario with capacity 12. -/
theorem a4_select :
    selectBest [exScen00, exScen01, exScen20, exScen21] = some exScen01 := by
  norm_num [selectBest, selStep, scenarioKey, keyLt, List.foldl,
    exScen00, exScen01, exScen20, exScen21]

/-- Worked example, 5 mm margins: the full plan. -/
theorem a4_makePlan :
    makePlan exCardW exCardH exSheetW exSheetH exMargin exMargin =
      .ok exPlan := by
  have h1 : ¬(exSheetW - 2 * exMargin ≤ 0 ∨ exSheetH - 2 * exMargin ≤ 0) := by
    norm_num [exSheetW, exSheetH, exMargin, MM_TO_PT]
  have hsel : selectBest (enumerateScenarios exCardW exCardH
      (exSheetW - 2 * exMargin) (exSheetH - 2 * exMargin)) = some exScen01 := by
    rw [a4_enum]
    exact a4_select
  obtain ⟨heq, -, -⟩ := makePlan_eq_ok h1 hsel
  rw [heq]
  norm_num [exPlan, exScen01, cardAfterTrim, MM_TO_PT, exSheetW, exSheetH,
    exCardW, exCardH, Plan.mk.injEq]

/-- Worked example, 5 mm margins: the chosen capacity is 12. -/
theorem a4_capacity :
    chosenCapacity exCardW exCardH exSheetW exSheetH exMargin exMargin =
      some 12 := by
  simp [chosenCapacity, a4_makePlan, exPlan, exScen01]

/-- Worked example, 40 mm margins: the scenarios of the zero-trim option. -/
theorem a4w_trim0 :
    scenariosForTrim exCardW exCardH (exSheetW - 2 * exWideMargin)
      (exSheetH - 2 * exWideMargin) 0 = [exScenW00, exScenW01] := by
  norm_num [scenariosForTrim, mkScenario, compute_grid, cardAfterTrim,
    MM_TO_PT, exCardW, exCardH, exSheetW, exSheetH, exWideMargin,
    exScenW00, exScenW01, List.filterMap_cons, Scenario.mk.injEq]
  simp only [Int.reduceToNat]
  norm_num

/-- Worked example, 40 mm margins: the scenarios of the 2 mm trim option. -/
theorem a4w_trim2 :
    scenariosForTrim exCardW exCardH (exSheetW - 2 * exWideMargin)
      (exSheetH - 2 * exWideMargin) 2 = [exScenW20, exScenW21] := by
  norm_num [scenariosForTrim, mkScenario, compute_grid, cardAfterTrim,
    MM_TO_PT, exCardW, exCardH, exSheetW, exSheetH, exWideMargin,
    exScenW20, exScenW21, List.filterMap_cons, Scenario.mk.injEq]
  simp only [Int.reduceToNat]
  norm_num

/-- Worked example, 40 mm margins: the full enumeration. -/
theorem a4w_enum :
    enumerateScenarios exCardW exCardH (exSheetW - 2 * exWideMargin)
      (exSheetH - 2 * exWideMargin) =
      [exScenW00, exScenW01, exScenW20, exScenW21] := by
  simp only [enumerateScenarios, trimCandidates, List.flatMap_cons,
    List.flatMap_nil, List.append_nil]
  rw [a4w_trim0, a4w_trim2]
  rfl

/-- Worked example, 40 mm margins: the selection keeps the no-trim
unrotated scenario with capacity 4. -/
theorem a4w_select :
    selectBest [exScenW00, exScenW01, exScenW20, exScenW21] =
      some exScenW00 := by
  norm_num [selectBest, selStep, scenarioKey, keyLt, List.foldl,
    exScenW00, exScenW01, exScenW20, exScenW21]

/-- Worked example, 40 mm margins: the full plan. -/
theorem a4w_makePlan :
    makePlan exCardW exCardH exSheetW exSheetH exWideMargin exWideMargin =
      .ok exPlanW := by
  have h1 : ¬(exSheetW - 2 * exWideMargin ≤ 0 ∨
      exSheetH - 2 * exWideMargin ≤ 0) := by
    norm_num [exSheetW, exSheetH, exWideMargin, MM_TO_PT]
  have hsel : selectBest (enumerateScenarios exCardW exCardH
      (exSheetW - 2 * exWideMargin) (exSheetH - 2 * exWideMargin)) =
      some exScenW00 := by
    rw [a4w_enum]
    exact a4w_select
  obtain ⟨heq, -, -⟩ := makePlan_eq_ok h1 hsel
  rw [heq]
  norm_num [exPlanW, exScenW00, cardAfterTrim, MM_TO_PT, exSheetW, exSheetH,
    exCardW, exCardH, Plan.mk.injEq]

/-- Worked example, 40 mm margins: the chosen capacity is 4. -/
theorem a4w_capacity :
    chosenCapacity exCardW exCardH exSheetW exSheetH exWideMargin
      exWideMargin = some 4 := by
  simp [chosenCapacity, a4w_makePlan, exPlanW, exScenW00]

/-- C9: for an A4 sheet, a 90 x 50 mm card and 5 mm margins, the enumerated
no-trim no-rotation scenario has 2 columns and 5 rows, and the selected
scenario has capacity equal to the maximum capacity among all computed
candidates. -/
theorem c9_worked_example :
    (∃ s ∈ enumerateScenarios exCardW exCardH (exSheetW - 2 * exMargin)
        (exSheetH - 2 * exMargin),
      s.trim_mm = 0 ∧ s.rotate = false ∧ s.cols = 2 ∧ s.rows = 5) ∧
    ∃ b ∈ enumerateScenarios exCardW exCardH (exSheetW - 2 * exMargin)
        (exSheetH - 2 * exMargin),
      selectBest (enumerateScenarios exCardW exCardH (exSheetW - 2 * exMargin)
        (exSheetH - 2 * exMargin)) = some b ∧
      ∀ t ∈ enumerateScenarios exCardW exCardH (exSheetW - 2 * exMargin)
        (exSheetH - 2 * exMargin), t.capacity ≤ b.capacity := by
  rw [a4_enum]
  constructor
  · exact ⟨exScen00, by simp, rfl, rfl, rfl, rfl⟩
  · refine ⟨exScen01, by simp, a4_select, ?_⟩
    intro t ht
    simp only [List.mem_cons, List.not_mem_nil, or_false] at ht
    rcases ht with rfl | rfl | rfl | rfl <;>
      norm_num [exScen00, exScen01, exScen20, exScen21]

/-- C2 witness: on the worked example the selector returns a scenario. -/
theorem c2_witness :
    ∃ b, selectBest (enumerateScenarios exCardW exCardH
      (exSheetW - 2 * exMargin) (exSheetH - 2 * exMargin)) = some b :=
  Exists.elim
    (c2_selector_deterministic_max exCardW exCardH (exSheetW - 2 * exMargin)
      (exSheetH - 2 * exMargin) (by rw [a4_enum]; simp))
    (fun b hb => ⟨b, hb.1⟩)

/-- C5 witness: the worked-example no-trim no-rotation scenario satisfies
the enumerator invariants. -/
theorem c5_witness :
    1 ≤ exScen00.cols ∧ 1 ≤ exScen00.rows ∧
    exScen00.capacity = exScen00.cols * exScen00.rows ∧
    1 ≤ exScen00.capacity ∧
    exScen00.cols = (⌊(exSheetW - 2 * exMargin) / exScen00.card_w_eff⌋).toNat ∧
    exScen00.rows = (⌊(exSheetH - 2 * exMargin) / exScen00.card_h_eff⌋).toNat :=
  (c5_enumerator_invariants exCardW exCardH (exSheetW - 2 * exMargin)
    (exSheetH - 2 * exMargin)).2 exScen00
    (by rw [a4_enum]; exact List.mem_cons_self _ _)

/-- C3 witness: on the worked example the final margin centers the grid on
the whole sheet. -/
theorem c3_witness :
    exPlan.margin_x =
      (exSheetW - (exPlan.best.cols : ℚ) * exPlan.card_w_eff) / 2 :=
  ((c3_margins_and_invariant exCardW exCardH exSheetW exSheetH exMargin
      exMargin).2 exPlan a4_makePlan).1

/-- C7 witness: a 110 mm margin on an A4 sheet fails with MarginTooLarge. -/
theorem c7_witness :
    makePlan exCardW exCardH exSheetW exSheetH (110 * MM_TO_PT) exMargin =
      .error .marginTooLarge :=
  (c7_margin_error_vs_no_viable exCardW exCardH exSheetW exSheetH
    (110 * MM_TO_PT) exMargin).1.mpr
    (by norm_num [exSheetW, exSheetH, exMargin, MM_TO_PT])

/-- C8 witness: growing the margins from 5 mm to 40 mm drops the chosen
capacity from 12 to 4. -/
theorem c8_witness : (4 : ℕ) ≤ 12 :=
  c8_capacity_monotone_in_margins exCardW exCardH exSheetW exSheetH
    exMargin exMargin exWideMargin exWideMargin 12 4
    (by norm_num [exMargin, exWideMargin, MM_TO_PT])
    (by norm_num [exMargin, exWideMargin, MM_TO_PT])
    a4_capacity a4w_capacity
